import Mathlib

/-!
Verification of the MindWeaver / spider-aggregation web front-end and
ingestion-core specification.

The first part embeds the JavaScript front-end sources
(`web/static/js/app.js`, `api.js`, `dashboard.js`, `table.js`) as Lean
functions; the second part models the ingestion core (filter engine,
deduplicator, scheduler, fetch cycle) from the specification, since the
corresponding Python modules are not part of the source tree.
-/

namespace SpiderAgg

/-! ### A small model of JavaScript values

Query-parameter values, JSON response fields and row data are JavaScript
values.  We model the fragment the embedded code actually touches:
booleans, numbers (integers suffice for the code at hand), strings,
`null` and `undefined`. -/

inductive JsVal where
  | vBool (b : Bool)
  | vNum (n : Int)
  | vStr (s : String)
  | vNull
  | vUndef
deriving DecidableEq

/-- JavaScript truthiness of an optional field value; a missing key
(`undefined` on property access) is falsy. -/
def jsTruthyOpt : Option JsVal → Bool
  | none => false
  | some (.vBool b) => b
  | some (.vNum n) => decide (n ≠ 0)
  | some (.vStr s) => !s.isEmpty
  | some .vNull => false
  | some .vUndef => false

/-- JavaScript string coercion (`String(v)`, template-literal interpolation). -/
def jsValToString : JsVal → String
  | .vBool b => if b then "true" else "false"
  | .vNum n => toString n
  | .vStr s => s
  | .vNull => "null"
  | .vUndef => "undefined"

/-- Interpolation of an optional property: a missing property renders as
`undefined` inside a template literal. -/
def jsDisplayOpt : Option JsVal → String
  | none => "undefined"
  | some v => jsValToString v

/-- Property access `obj[k]` on an object modelled as an association list
(JavaScript string-keyed objects preserve insertion order and have
unique keys). -/
def jsLookup (obj : List (String × JsVal)) (k : String) : Option JsVal :=
  (obj.find? (fun p => p.1 == k)).map Prod.snd

/-! ### `App.normalizeUtcDate` (app.js)

```js
App.normalizeUtcDate = function(dateStr) {
    if (!dateStr) return dateStr;
    const hasTimezone = /(Z|[+-]\d{2}:\d{2}|[+-]\d{4})$/i.test(dateStr);
    if (!hasTimezone) {
        return dateStr + 'Z';
    }
    return dateStr;
};
```
-/

/-- `c` is `+` or `-` (the `[+-]` character class). -/
def isSignChar (c : Char) : Bool := c == '+' || c == '-'

/-- The last `n` characters of a string (fewer if the string is shorter). -/
def lastChars (s : String) (n : Nat) : List Char :=
  (s.data.reverse.take n).reverse

/-- The regex alternative `Z$` with the `i` flag: the string ends in `Z` or `z`. -/
def endsWithZ (s : String) : Bool :=
  match s.data.getLast? with
  | some c => c == 'Z' || c == 'z'
  | none => false

/-- The regex alternative `[+-]\d{2}:\d{2}$`. -/
def endsWithColonOffset (s : String) : Bool :=
  match lastChars s 6 with
  | [a, b, c, d, e, f] =>
      isSignChar a && b.isDigit && c.isDigit && d == ':' && e.isDigit && f.isDigit
  | _ => false

/-- The regex alternative `[+-]\d{4}$`. -/
def endsWithPlainOffset (s : String) : Bool :=
  match lastChars s 5 with
  | [a, b, c, d, e] =>
      isSignChar a && b.isDigit && c.isDigit && d.isDigit && e.isDigit
  | _ => false

/-- The test `/(Z|[+-]\d{2}:\d{2}|[+-]\d{4})$/i.test(dateStr)`. -/
def hasTrailingTimezone (s : String) : Bool :=
  endsWithZ s || endsWithColonOffset s || endsWithPlainOffset s

/-- `App.normalizeUtcDate`.  The JavaScript guard `if (!dateStr)` returns
falsy inputs unchanged; among strings only `""` is falsy. -/
def normalizeUtcDate (s : String) : String :=
  if s.isEmpty then s
  else if hasTrailingTimezone s then s
  else s ++ "Z"

/-! ### `App.formatDate` (app.js)

```js
App.formatDate = function(dateStr) {
    const normalizedDateStr = App.normalizeUtcDate(dateStr);
    const date = new Date(normalizedDateStr);
    if (isNaN(date.getTime())) return dateStr;
    return date.toLocaleString('zh-CN', {...});
};
```

`new Date(string)` parsing and `toLocaleString` are host-environment
behaviour, so they enter the embedding as parameters: `parseJsDate`
returns `none` exactly when the resulting date is invalid
(`isNaN(date.getTime())`), and `renderLocale` is the locale formatter. -/

def formatDate (parseJsDate : String → Option Int) (renderLocale : Int → String)
    (s : String) : String :=
  match parseJsDate (normalizeUtcDate s) with
  | none => s
  | some t => renderLocale t

/-! ### `API.buildURL` (api.js)

```js
buildURL(path, params = {}) {
    const url = new URL(path, window.location.origin);
    Object.keys(params).forEach(key => {
        if (params[key] !== null && params[key] !== undefined) {
            url.searchParams.append(key, params[key]);
        }
    });
    return url.toString();
}
```

We embed the query string it builds: the ordered list of appended
`(key, value)` pairs, where `searchParams.append` coerces the value to a
string. -/

/-- `v` is `null` or `undefined` (the values the guard skips). -/
def isNullish : JsVal → Bool
  | .vNull => true
  | .vUndef => true
  | _ => false

/-- The query pairs `API.buildURL` appends, in key order. -/
def buildURLQuery (params : List (String × JsVal)) : List (String × String) :=
  params.filterMap (fun p =>
    if isNullish p.2 then none else some (p.1, jsValToString p.2))

/-! ### `loadSchedulerStatus` (dashboard.js)

```js
const response = await App.api.get('/api/scheduler/status');
const status = response.data;
if (status.is_running) {
    statusText.textContent = `Running (${status.enabled_feeds_count} feeds scheduled)`;
} else {
    statusText.textContent = `Stopped (${status.enabled_feeds_count} feeds enabled)`;
}
```

The embedding computes the status text the consumer displays from the
`response.data` object. -/

def schedulerStatusText (status : List (String × JsVal)) : String :=
  if jsTruthyOpt (jsLookup status "is_running") then
    "Running (" ++ jsDisplayOpt (jsLookup status "enabled_feeds_count")
      ++ " feeds scheduled)"
  else
    "Stopped (" ++ jsDisplayOpt (jsLookup status "enabled_feeds_count")
      ++ " feeds enabled)"

/-! ### `DataTable` state, `goToPage`, `refresh` (table.js)

```js
goToPage(page) { this.state.page = page; this.clearSelection(); this.loadData(); }
refresh()     { this.clearSelection(); this.loadData(); }
clearSelection() { this.state.selectedIds.clear(); this.updateRowSelection(); }
getSelectedIds() { return Array.from(this.state.selectedIds); }
```

`loadData` guards on `state.loading` (early return) and otherwise writes
`state.data` and `state.total` from the response; it never touches
`selectedIds`.  The fetched response enters the embedding as a
parameter. -/

structure TableState where
  page : Nat
  pageSize : Nat
  total : Nat
  data : List Nat
  selectedIds : List Nat
  loading : Bool
deriving DecidableEq

structure LoadResponse where
  items : List Nat
  total : Nat

def clearSelection (st : TableState) : TableState :=
  { st with selectedIds := [] }

def loadTableData (st : TableState) (resp : LoadResponse) : TableState :=
  if st.loading then st
  else { st with data := resp.items, total := resp.total }

def goToPage (st : TableState) (page : Nat) (resp : LoadResponse) : TableState :=
  loadTableData (clearSelection { st with page := page }) resp

def tableRefresh (st : TableState) (resp : LoadResponse) : TableState :=
  loadTableData (clearSelection st) resp

def getSelectedIds (st : TableState) : List Nat :=
  st.selectedIds

/-! ### `DataTable.handleRowAction` (table.js)

```js
handleRowAction(action, id, row) {
    const actionConfig = this.options.rowActions?.(row).find(a => a.name === action);
    if (actionConfig?.onClick) {
        if (typeof actionConfig.onClick === 'function') {
            actionConfig.onClick(row, action);
        } else if (typeof actionConfig.onClick === 'string') {
            // Execute string as JavaScript code
            new Function(actionConfig.onClick)();
        }
    }
}
```

An `onClick` entry of a row-action configuration is absent, a function
value (abstracted by a handler id), or a string of JavaScript source.
The observable effect of a dispatch is: nothing, a call of the
configured function value, or dynamic evaluation of the configured
string via `new Function`.  The empty string is falsy in JavaScript, so
a `""` onClick fails the `if (actionConfig?.onClick)` guard. -/

inductive OnClick where
  | absent
  | funcVal (handlerId : Nat)
  | strVal (code : String)
deriving DecidableEq

structure ActionConfig where
  name : String
  onClick : OnClick
deriving DecidableEq

inductive RowDispatch where
  | noop
  | callFunction (handlerId : Nat)
  | evalString (code : String)
deriving DecidableEq

def handleRowAction (rowActions : Nat → List ActionConfig) (action : String)
    (row : Nat) : RowDispatch :=
  match (rowActions row).find? (fun a => a.name == action) with
  | none => .noop
  | some cfg =>
    match cfg.onClick with
    | .absent => .noop
    | .funcVal h => .callFunction h
    | .strVal code => if code.isEmpty then .noop else .evalString code

/-! ## The ingestion core

The Python core modules (`core/filter_engine.py`, `core/deduplicator.py`,
`core/scheduler.py`, `core/fetcher.py`) are not part of the source tree —
only their configuration surface (the feed and rule forms in `api.js`,
the README's environment-variable table) is.  The definitions below are
modelled from the specification, with the concrete bounds and defaults
taken from the sources that do exist. -/

/-- Substring check on character lists: `needle` occurs contiguously in
the list. -/
def listContainsSub (needle : List Char) : List Char → Bool
  | [] => List.isPrefixOf needle []
  | c :: rest => List.isPrefixOf needle (c :: rest) || listContainsSub needle rest

/-- `needle` is a substring of `hay`. -/
def strContains (hay needle : String) : Bool :=
  listContainsSub needle.data hay.data

/-- A structured feed-item URL: scheme, host, path and query parameters. -/
structure Link where
  scheme : String
  host : String
  path : String
  query : List (String × String)
deriving DecidableEq

/-- An entry as seen by deduplication and filtering: link, title, raw
content, detected language and attached tags. -/
structure Entry where
  link : Link
  title : String
  content : String
  language : String
  tags : List String
deriving DecidableEq

/-! ### FilterEngine

Modelled from the spec: `accepts(entry, rules) -> bool`; rules are
evaluated in priority order (descending), ties broken by declaration
order; the first matching enabled rule wins (exclude rejects, include
accepts); an entry no rule matches is accepted.  Pattern kinds follow
the rule form in `api.js` (keyword / regex / tag / language, match type
include / exclude, priority 0-100).  The regex engine is a host concern
and enters as a parameter. -/

inductive RuleType where
  | keyword
  | regex
  | tag
  | language
deriving DecidableEq

inductive MatchType where
  | includeRule
  | excludeRule
deriving DecidableEq

structure FilterRule where
  name : String
  ruleType : RuleType
  matchType : MatchType
  pattern : String
  priority : Nat
  enabled : Bool
deriving DecidableEq

/-- Modelled from the spec: each rule kind's pattern is matched against
the relevant entry field (keyword: substring of title+content; regex:
the compiled pattern against title+content, engine supplied as
`regexMatch`; tag: membership; language: exact match). -/
def matchesRule (regexMatch : String → String → Bool) (r : FilterRule)
    (e : Entry) : Bool :=
  match r.ruleType with
  | .keyword => strContains (e.title ++ " " ++ e.content) r.pattern
  | .regex => regexMatch r.pattern (e.title ++ " " ++ e.content)
  | .tag => e.tags.contains r.pattern
  | .language => e.language == r.pattern

/-- A rule participates in evaluation when it is enabled and its pattern
matches. -/
def ruleApplies (regexMatch : String → String → Bool) (e : Entry)
    (r : FilterRule) : Bool :=
  r.enabled && matchesRule regexMatch r e

/-- Evaluation precedence on declaration-indexed rules: higher priority
first, equal priorities in declaration order. -/
def rulePrecedes (a b : Nat × FilterRule) : Prop :=
  b.2.priority < a.2.priority ∨ (a.2.priority = b.2.priority ∧ a.1 ≤ b.1)

instance : DecidableRel rulePrecedes := fun a b => by
  unfold rulePrecedes; exact inferInstance

instance : IsTotal (Nat × FilterRule) rulePrecedes :=
  ⟨by intro a b; unfold rulePrecedes; omega⟩

instance : IsTrans (Nat × FilterRule) rulePrecedes :=
  ⟨by intro a b c hab hbc; unfold rulePrecedes at *; omega⟩

/-- The declaration-indexed rule list in evaluation order. -/
def sortRulesIdx (rules : List FilterRule) : List (Nat × FilterRule) :=
  List.insertionSort rulePrecedes rules.enum

/-- The rule list in evaluation order. -/
def sortRules (rules : List FilterRule) : List FilterRule :=
  (sortRulesIdx rules).map Prod.snd

/-- Modelled from the spec: scan the (already ordered) rules; the first
enabled matching rule decides; accept when none matches. -/
def evalSortedRules (regexMatch : String → String → Bool) (e : Entry) :
    List FilterRule → Bool
  | [] => true
  | r :: rest =>
    if ruleApplies regexMatch e r then decide (r.matchType = .includeRule)
    else evalSortedRules regexMatch e rest

/-- Modelled from the spec: `accepts(entry, rules)`. -/
def filterAccepts (regexMatch : String → String → Bool) (e : Entry)
    (rules : List FilterRule) : Bool :=
  evalSortedRules regexMatch e (sortRules rules)

/-! ### Deduplicator

Modelled from the spec: per-source duplicate detection over derived
signatures (canonical link, normalized title, content hash, normalized
content), with strategies strict / medium / relaxed.  The spec leaves
the hash function open (requiring only a stable deterministic hash over
normalized body text); the model uses the normalized body text itself.
Similarity is Jaccard over the token set of the normalized content —
the spec leaves the exact algorithm tunable, requiring symmetry and
determinism, which Jaccard has.  The threshold is a rational
`thNum / thDen` (default 0.85 = 85/100). -/

/-- Query parameters stripped during link canonicalization (the spec
requires tracking parameters to be removed; this is a representative
closed set). -/
def trackingParams : List String :=
  ["utm_source", "utm_medium", "utm_campaign", "utm_term", "utm_content",
   "ref", "fbclid", "gclid"]

/-- Drop one trailing slash from a non-root path. -/
def normalizeTrailingSlash (p : String) : String :=
  if p.data.length > 1 && p.data.getLast? == some '/' then ⟨p.data.dropLast⟩
  else p

/-- Modelled from the spec: canonical link = scheme+host+path with
normalized trailing slash and tracking query parameters stripped. -/
def canonicalLink (l : Link) : Link :=
  { scheme := l.scheme
    host := l.host
    path := normalizeTrailingSlash l.path
    query := l.query.filter (fun q => !(trackingParams.contains q.1)) }

/-- Split a character list into maximal whitespace-free words; `acc`
holds the reversed characters of the word in progress. -/
def wordsAux : List Char → List Char → List String
  | [], acc => if acc.isEmpty then [] else [⟨acc.reverse⟩]
  | c :: rest, acc =>
    if c.isWhitespace then
      if acc.isEmpty then wordsAux rest []
      else ⟨acc.reverse⟩ :: wordsAux rest []
    else wordsAux rest (c :: acc)

/-- The whitespace-separated words of a string. -/
def splitIntoWords (s : String) : List String :=
  wordsAux s.data []

/-- Join words with single spaces. -/
def joinWords : List String → String
  | [] => ""
  | [w] => w
  | w :: rest => w ++ " " ++ joinWords rest

/-- Modelled from the spec: case-folded, whitespace-collapsed text
normalization (used for titles and body text). -/
def normalizeText (t : String) : String :=
  joinWords (splitIntoWords ⟨t.data.map Char.toLower⟩)

/-- Modelled from the spec: a stable deterministic hash over normalized
body text; the spec fixes no algorithm, so the model hashes to the
normalized text itself. -/
def contentHash (c : String) : String :=
  normalizeText c

/-- The derived dedup signature of a candidate entry. -/
structure Signature where
  canonLink : Link
  normTitle : String
  bodyHash : String
  normContent : String
deriving DecidableEq

/-- Modelled from the spec: `signaturesFor(candidate)`. -/
def signaturesFor (e : Entry) : Signature :=
  { canonLink := canonicalLink e.link
    normTitle := normalizeText e.title
    bodyHash := contentHash e.content
    normContent := normalizeText e.content }

/-- The deduplicated word-token set of a normalized text. -/
def tokenSet (s : String) : List String :=
  (splitIntoWords s).dedup

/-- Size of the intersection of two deduplicated token lists. -/
def interCount (a b : List String) : Nat :=
  (a.filter (fun w => b.contains w)).length

/-- Size of the union of two deduplicated token lists. -/
def unionCount (a b : List String) : Nat :=
  (a ++ b.filter (fun w => !a.contains w)).length

/-- Jaccard similarity of the token sets is at least `num / den`. -/
def jaccardGE (a b : String) (num den : Nat) : Bool :=
  decide (num * unionCount (tokenSet a) (tokenSet b)
    ≤ den * interCount (tokenSet a) (tokenSet b))

inductive DedupStrategy where
  | strict
  | medium
  | relaxed
deriving DecidableEq

/-- Modelled from the spec: whether candidate signature `sig` duplicates
a known signature `k` under the strategy, cheapest check first (link,
then title, then content hash, then similarity). -/
def dupAgainst (strategy : DedupStrategy) (thNum thDen : Nat)
    (k sig : Signature) : Bool :=
  match strategy with
  | .strict => k.canonLink == sig.canonLink
  | .medium =>
      k.canonLink == sig.canonLink || k.normTitle == sig.normTitle
        || k.bodyHash == sig.bodyHash
  | .relaxed =>
      k.canonLink == sig.canonLink || k.normTitle == sig.normTitle
        || k.bodyHash == sig.bodyHash
        || jaccardGE k.normContent sig.normContent thNum thDen

/-- Modelled from the spec: `isDuplicate(source, candidate,
knownSignatures)`; known signatures are scoped per source. -/
def isDuplicate (strategy : DedupStrategy) (thNum thDen : Nat) (e : Entry)
    (known : List Signature) : Bool :=
  known.any (fun k => dupAgainst strategy thNum thDen k (signaturesFor e))

/-! ### Scheduler due times

Modelled from the spec: next-due = `lastFetched + max(intervalMinutes,
globalMinIntervalMinutes)`; a source is due when now ≥ next-due.  The
global default is `MIND_SCHEDULER_MIN_INTERVAL = 15` (README); the feed
form in `api.js` constrains the per-source interval to 10..10080. -/

structure Source where
  intervalMinutes : Nat
  lastFetched : Nat
  etag : Option String
  lastModifiedTok : Option String
  errorCount : Nat
  enabled : Bool
deriving DecidableEq

structure SchedulerConfig where
  minIntervalMinutes : Nat
  maxWorkers : Nat
deriving DecidableEq

/-- Default of `MIND_SCHEDULER_MIN_INTERVAL` (minutes), from the README
configuration table. -/
def defaultMinIntervalMinutes : Nat := 15

/-- Default of `MIND_SCHEDULER_MAX_WORKERS`, from the README
configuration table. -/
def defaultMaxWorkers : Nat := 3

/-- The fetch-interval bounds of the feed form in `api.js`
(`min="10" max="10080"`). -/
def feedFormIntervalAllowed (n : Nat) : Bool :=
  10 ≤ n && n ≤ 10080

/-- Modelled from the spec: the per-source interval floor-clamped to the
global minimum. -/
def effectiveIntervalMinutes (s : Source) (cfg : SchedulerConfig) : Nat :=
  max s.intervalMinutes cfg.minIntervalMinutes

/-- Modelled from the spec: the source's next-due time (minutes on an
absolute timeline). -/
def nextDueTime (s : Source) (cfg : SchedulerConfig) : Nat :=
  s.lastFetched + effectiveIntervalMinutes s cfg

/-- Modelled from the spec: a source is due when the current time has
reached its next-due time. -/
def isDue (now : Nat) (s : Source) (cfg : SchedulerConfig) : Bool :=
  decide (nextDueTime s cfg ≤ now)

/-! ### One fetch cycle

Modelled from the spec: a cycle fetches, then runs Parse→Dedup→Filter
over the payload's entries, producing a `FetchCycleResult` and the
updated source state.  Not-modified is a zero-effort success; a fetch
failure records one error and increments the consecutive-error count;
success resets it.  New signatures are committed only for entries that
also survive filtering. -/

structure FetchCycleResult where
  fetched : Nat
  new : Nat
  duplicate : Nat
  filteredOut : Nat
  errors : Nat
deriving DecidableEq

/-- The fetcher's outcome for one cycle: `NotModified`, a parsed payload
with fresh validator tokens, or a (retry-exhausted) failure. -/
inductive FetchOutcome where
  | notModified
  | payload (entries : List Entry) (newEtag newLastModified : Option String)
  | fetchFailure

/-- The cycle's fixed collaborators: regex engine, dedup strategy and
threshold, and the rule set. -/
structure CycleEnv where
  regexMatch : String → String → Bool
  strategy : DedupStrategy
  thNum : Nat
  thDen : Nat
  rules : List FilterRule

/-- Dedup-then-filter pass over the payload entries, accumulating
(new, duplicate, filteredOut) counts; a signature joins the known set
only when its entry survives both stages. -/
def processEntries (env : CycleEnv) :
    List Entry → List Signature → Nat × Nat × Nat → Nat × Nat × Nat
  | [], _, acc => acc
  | e :: rest, known, (n, d, f) =>
    if isDuplicate env.strategy env.thNum env.thDen e known then
      processEntries env rest known (n, d + 1, f)
    else if filterAccepts env.regexMatch e env.rules then
      processEntries env rest (signaturesFor e :: known) (n + 1, d, f)
    else
      processEntries env rest known (n, d, f + 1)

/-- Modelled from the spec: one scheduler-driven fetch cycle over one
source.  `known` is the persisted signature set for the source. -/
def runCycle (env : CycleEnv) (now : Nat) (known : List Signature)
    (outcome : FetchOutcome) (s : Source) : FetchCycleResult × Source :=
  match outcome with
  | .notModified =>
      (⟨0, 0, 0, 0, 0⟩, { s with lastFetched := now, errorCount := 0 })
  | .fetchFailure =>
      (⟨0, 0, 0, 0, 1⟩,
        { s with lastFetched := now, errorCount := s.errorCount + 1 })
  | .payload entries newEtag newLastModified =>
      let counts := processEntries env entries known (0, 0, 0)
      (⟨entries.length, counts.1, counts.2.1, counts.2.2, 0⟩,
        { s with lastFetched := now, etag := newEtag,
                 lastModifiedTok := newLastModified, errorCount := 0 })

/-! ### Concrete instances used by witnesses and counterexamples -/

/-- A regex engine that never matches (the regex-kind rules are inert). -/
def noRegex : String → String → Bool := fun _ _ => false

/-- The spec's example exclude rule: priority 10, keyword `spam`. -/
def spamRule : FilterRule :=
  { name := "no-spam", ruleType := .keyword, matchType := .excludeRule,
    pattern := "spam", priority := 10, enabled := true }

/-- The spec's example include rule: priority 5, keyword `news`. -/
def newsRule : FilterRule :=
  { name := "want-news", ruleType := .keyword, matchType := .includeRule,
    pattern := "news", priority := 5, enabled := true }

/-- An entry containing both `spam` and `news`. -/
def spamNewsEntry : Entry :=
  { link := { scheme := "https", host := "example.com", path := "/post", query := [] }
    title := "spam news digest"
    content := "daily roundup"
    language := "en"
    tags := [] }

/-- A row-action table whose `visit` action carries a string `onClick`
(as the feed and rule pages configure). -/
def exRowActions : Nat → List ActionConfig := fun _ =>
  [{ name := "visit", onClick := .strVal "window.open(row.link)" }]

/-- Example query parameters: a number, a `null`, an `undefined` and a
string value. -/
def exParams : List (String × JsVal) :=
  [("page", .vNum 2), ("q", .vNull), ("sort", .vUndef), ("tag", .vStr "ai")]

/-- Previously seen entry for the strict-dedup witness: same canonical
link as the candidate (trailing slash, tracking parameter), different
title. -/
def strictSeen : Entry :=
  { link := { scheme := "https", host := "example.com", path := "/a/",
              query := [("utm_source", "feed")] }
    title := "Original headline"
    content := "body one"
    language := "en"
    tags := [] }

/-- Candidate for the strict-dedup witness. -/
def strictCand : Entry :=
  { link := { scheme := "https", host := "example.com", path := "/a", query := [] }
    title := "A different headline"
    content := "body two"
    language := "en"
    tags := [] }

/-- Previously seen entry for the medium-dedup witness: different link,
title equal up to case and whitespace. -/
def mediumSeen : Entry :=
  { link := { scheme := "https", host := "example.com", path := "/b1", query := [] }
    title := "Hello   World"
    content := "alpha"
    language := "en"
    tags := [] }

/-- Candidate for the medium-dedup witness. -/
def mediumCand : Entry :=
  { link := { scheme := "https", host := "example.com", path := "/b2", query := [] }
    title := "hello world"
    content := "beta"
    language := "en"
    tags := [] }

/-- Previously seen entry for the relaxed-dedup witness: 17 of 19
distinct words shared with the candidate (Jaccard 17/19 ≈ 0.89 ≥ 0.85),
different link and title. -/
def relaxedSeen : Entry :=
  { link := { scheme := "https", host := "example.com", path := "/c1", query := [] }
    title := "News roundup monday"
    content := "alpha bravo charlie delta echo foxtrot golf hotel india juliet kilo lima mike november oscar papa quebec seen"
    language := "en"
    tags := [] }

/-- Candidate for the relaxed-dedup witness. -/
def relaxedCand : Entry :=
  { link := { scheme := "https", host := "example.com", path := "/c2", query := [] }
    title := "Weekly digest"
    content := "alpha bravo charlie delta echo foxtrot golf hotel india juliet kilo lima mike november oscar papa quebec cand"
    language := "en"
    tags := [] }

/-! ## Theorems -/

/-- C2 (counterexample): the empty string has no trailing timezone
designator, yet `normalizeUtcDate` does not append `Z` to it (the
JavaScript falsy guard returns it unchanged), so "appends `Z` exactly
when the string has no trailing timezone designator" fails at `""`. -/
theorem normalizeUtcDate_empty_counterexample :
    hasTrailingTimezone "" = false ∧ normalizeUtcDate "" ≠ "" ++ "Z" := by
  decide

/-- C2 (amended): for every non-empty date string, `normalizeUtcDate`
appends `Z` exactly when the string has no trailing timezone designator
(`Z`/`z`, `±HH:MM`, or `±HHMM`), and returns strings that already
carry one unchanged. -/
theorem normalizeUtcDate_appends_Z_iff_no_tz (s : String)
    (h : s.isEmpty = false) :
    (hasTrailingTimezone s = false → normalizeUtcDate s = s ++ "Z")
    ∧ (hasTrailingTimezone s = true → normalizeUtcDate s = s) := by
  constructor <;> intro h2 <;> simp [normalizeUtcDate, h, h2]

/-- C2 (witness): a timezone-less backend timestamp gets `Z` appended,
and one carrying an offset is returned unchanged. -/
theorem normalizeUtcDate_appends_Z_iff_no_tz_witness :
    normalizeUtcDate "2025-01-15T10:30:00" = "2025-01-15T10:30:00" ++ "Z"
    ∧ normalizeUtcDate "2025-01-15T10:30:00+08:00" = "2025-01-15T10:30:00+08:00" := by
  constructor
  · exact (normalizeUtcDate_appends_Z_iff_no_tz "2025-01-15T10:30:00" (by decide)).1
      (by decide)
  · exact (normalizeUtcDate_appends_Z_iff_no_tz "2025-01-15T10:30:00+08:00"
      (by decide)).2 (by decide)

/-- C8: `App.formatDate` is total on strings and returns the original
input unchanged whenever the (host) date parse of the UTC-normalized
string fails. -/
theorem formatDate_returns_input_on_parse_failure
    (parseJsDate : String → Option Int) (renderLocale : Int → String)
    (s : String) (h : parseJsDate (normalizeUtcDate s) = none) :
    formatDate parseJsDate renderLocale s = s := by
  unfold formatDate
  rw [h]

/-- C8 (witness): a host parser rejecting everything makes `formatDate`
return the garbage input unchanged. -/
theorem formatDate_returns_input_on_parse_failure_witness :
    formatDate (fun _ => none) (fun _ => "") "not a date" = "not a date" :=
  formatDate_returns_input_on_parse_failure (fun _ => none) (fun _ => "")
    "not a date" rfl

/-- C10: `goToPage` and `refresh` clear the selected-row set before
reloading, so immediately afterwards `getSelectedIds()` is empty, for
every table state, target page and load response. -/
theorem goToPage_refresh_clear_selection (st : TableState) (p : Nat)
    (resp : LoadResponse) :
    getSelectedIds (goToPage st p resp) = []
    ∧ getSelectedIds (tableRefresh st resp) = [] := by
  constructor <;>
    · simp only [goToPage, tableRefresh, loadTableData, clearSelection,
        getSelectedIds]
      split <;> rfl

/-- C5: the next-due time is `lastFetched + max(intervalMinutes,
globalMinIntervalMinutes)`, a source is due exactly when now has reached
it, the effective interval never drops below the global minimum, and in
particular a source configured with the smallest interval the feed form
permits (10) is clamped to the default global minimum 15. -/
theorem nextDueTime_clamped_to_min (now : Nat) (s : Source)
    (cfg : SchedulerConfig) :
    nextDueTime s cfg = s.lastFetched + max s.intervalMinutes cfg.minIntervalMinutes
    ∧ (isDue now s cfg = true ↔ nextDueTime s cfg ≤ now)
    ∧ cfg.minIntervalMinutes ≤ effectiveIntervalMinutes s cfg
    ∧ feedFormIntervalAllowed 10 = true
    ∧ effectiveIntervalMinutes
        { intervalMinutes := 10, lastFetched := 0, etag := none,
          lastModifiedTok := none, errorCount := 0, enabled := true }
        { minIntervalMinutes := defaultMinIntervalMinutes,
          maxWorkers := defaultMaxWorkers } = 15 := by
  refine ⟨rfl, by simp [isDue], ?_, by decide, by decide⟩
  exact le_max_right _ _

/-- C6: a not-modified fetch completes the cycle with the all-zero
`FetchCycleResult`, updates `lastFetched`, leaves both validator tokens
unchanged, and does not increment the consecutive-error count. -/
theorem runCycle_notModified_zero_effort (env : CycleEnv) (now : Nat)
    (known : List Signature) (s : Source) :
    (runCycle env now known .notModified s).1 =
        { fetched := 0, new := 0, duplicate := 0, filteredOut := 0, errors := 0 }
    ∧ (runCycle env now known .notModified s).2.lastFetched = now
    ∧ (runCycle env now known .notModified s).2.etag = s.etag
    ∧ (runCycle env now known .notModified s).2.lastModifiedTok = s.lastModifiedTok
    ∧ (runCycle env now known .notModified s).2.errorCount ≤ s.errorCount := by
  refine ⟨rfl, rfl, rfl, rfl, ?_⟩
  simp [runCycle]

/-- C3 (counterexample): on a status object carrying exactly the fields
`state`, `scheduledCount` and `runningCount`, the consumer of
`/api/scheduler/status` renders "Stopped (undefined feeds enabled)" — it
cannot read the run state or the scheduled count from those fields. -/
theorem schedulerStatusText_counterexample :
    schedulerStatusText
        [("state", .vStr "running"), ("scheduledCount", .vNum 5),
         ("runningCount", .vNum 1)]
      = "Stopped (undefined feeds enabled)"
    ∧ schedulerStatusText
        [("is_running", .vBool true), ("enabled_feeds_count", .vNum 5)]
      = "Running (5 feeds scheduled)" := by
  decide

/-- C3 (amended): the consumer of `/api/scheduler/status` reads the run
state and the scheduled count only from the fields `is_running` and
`enabled_feeds_count` of `response.data`: the rendered status text
depends on exactly those two fields. -/
theorem schedulerStatusText_reads_only_two_fields
    (s1 s2 : List (String × JsVal))
    (h1 : jsLookup s1 "is_running" = jsLookup s2 "is_running")
    (h2 : jsLookup s1 "enabled_feeds_count" = jsLookup s2 "enabled_feeds_count") :
    schedulerStatusText s1 = schedulerStatusText s2 := by
  unfold schedulerStatusText
  rw [h1, h2]

/-- C3 (witness): an extra unrelated field does not change the rendered
status. -/
theorem schedulerStatusText_reads_only_two_fields_witness :
    schedulerStatusText [("is_running", .vBool true), ("enabled_feeds_count", .vNum 5)]
      = schedulerStatusText
          [("uptime", .vNum 99), ("is_running", .vBool true),
           ("enabled_feeds_count", .vNum 5)] :=
  schedulerStatusText_reads_only_two_fields _ _ (by decide) (by decide)

/-- C1 (counterexample): dispatching the `visit` row action of a
configuration whose `onClick` is a string makes `handleRowAction`
execute that configuration-supplied string as code (the
`new Function(actionConfig.onClick)()` branch), refuting "no operation
ever executes a configuration-supplied string as code". -/
theorem handleRowAction_evals_string_counterexample :
    handleRowAction exRowActions "visit" 0
      = .evalString "window.open(row.link)" := by
  decide

/-- C1 (amended): `handleRowAction` dispatches through the `rowActions`
table: a function-valued `onClick` is invoked as a function value, but a
non-empty string-valued `onClick` is executed as code via
`new Function`; dynamic evaluation of a configuration-supplied string
occurs exactly when the dispatched action's `onClick` is that non-empty
string. -/
theorem handleRowAction_evalString_iff (rowActions : Nat → List ActionConfig)
    (action : String) (row : Nat) (code : String) :
    handleRowAction rowActions action row = .evalString code ↔
      ∃ cfg, (rowActions row).find? (fun a => a.name == action) = some cfg
        ∧ cfg.onClick = .strVal code ∧ code.isEmpty = false := by
  constructor
  · intro h
    cases hf : (rowActions row).find? (fun a => a.name == action) with
    | none => simp [handleRowAction, hf] at h
    | some cfg =>
      cases hc : cfg.onClick with
      | absent => simp [handleRowAction, hf, hc] at h
      | funcVal hid => simp [handleRowAction, hf, hc] at h
      | strVal c =>
        simp only [handleRowAction, hf, hc] at h
        by_cases he : c.isEmpty
        · simp [he] at h
        · rw [if_neg he] at h
          obtain rfl : c = code := (RowDispatch.evalString.injEq _ _).mp h
          exact ⟨cfg, rfl, hc, by simpa using he⟩
  · rintro ⟨cfg, hf, hc, hne⟩
    simp [handleRowAction, hf, hc, hne]

/-- Scanning an ordered rule list is deciding by its first applicable
rule: `evalSortedRules` agrees with `find?` of the first enabled
matching rule (accept by default when there is none). -/
theorem evalSortedRules_eq_find (regexMatch : String → String → Bool)
    (e : Entry) (l : List FilterRule) :
    evalSortedRules regexMatch e l =
      (match l.find? (ruleApplies regexMatch e) with
       | none => true
       | some r => decide (r.matchType = .includeRule)) := by
  induction l with
  | nil => rfl
  | cons r rest ih =>
    by_cases h : ruleApplies regexMatch e r = true
    · simp [evalSortedRules, List.find?_cons_of_pos, h]
    · rw [Bool.not_eq_true] at h
      simp [evalSortedRules, List.find?_cons_of_neg, h, ih]

/-- C4: filter evaluation orders the declaration-indexed rules by
priority descending with declaration order breaking ties
(`sortRulesIdx` is sorted under `rulePrecedes` and is a permutation of
the indexed rules), the verdict is decided by the first enabled matching
rule in that order (exclude rejects, include accepts) with acceptance by
default when no rule applies, and in particular an entry matching both a
priority-10 exclude rule and a priority-5 include rule is rejected. -/
theorem filterAccepts_priority_first_match
    (regexMatch : String → String → Bool) (rules : List FilterRule)
    (e : Entry) :
    List.Sorted rulePrecedes (sortRulesIdx rules)
    ∧ (sortRulesIdx rules).Perm rules.enum
    ∧ filterAccepts regexMatch e rules =
        (match (sortRules rules).find? (ruleApplies regexMatch e) with
         | none => true
         | some r => decide (r.matchType = .includeRule))
    ∧ filterAccepts noRegex spamNewsEntry [spamRule, newsRule] = false := by
  refine ⟨List.sorted_insertionSort _ _, List.perm_insertionSort _ _,
    evalSortedRules_eq_find regexMatch e (sortRules rules), by decide⟩

/-- C7: against any known signature of the same source — strict dedup
classifies a candidate as duplicate whenever the canonical links match
(titles free), medium whenever the normalized titles are identical
(links free), and relaxed whenever the Jaccard similarity of the
normalized contents reaches the threshold (links and titles free). -/
theorem isDuplicate_strategies (thNum thDen : Nat) (e : Entry)
    (k : Signature) (known : List Signature) (hk : k ∈ known) :
    ((signaturesFor e).canonLink = k.canonLink →
      isDuplicate .strict thNum thDen e known = true)
    ∧ ((signaturesFor e).normTitle = k.normTitle →
      isDuplicate .medium thNum thDen e known = true)
    ∧ (jaccardGE k.normContent (signaturesFor e).normContent thNum thDen = true →
      isDuplicate .relaxed thNum thDen e known = true) := by
  refine ⟨fun h => ?_, fun h => ?_, fun h => ?_⟩ <;>
    · rw [isDuplicate, List.any_eq_true]
      exact ⟨k, hk, by simp [dupAgainst, h]⟩

/-- C7 (witness): concrete duplicate pairs — same canonical link with
different titles (strict), identical normalized titles with different
links (medium), and 17-of-19-token content overlap with different links
and titles (relaxed). -/
theorem isDuplicate_strategies_witness :
    isDuplicate .strict 85 100 strictCand [signaturesFor strictSeen] = true
    ∧ isDuplicate .medium 85 100 mediumCand [signaturesFor mediumSeen] = true
    ∧ isDuplicate .relaxed 85 100 relaxedCand [signaturesFor relaxedSeen] = true
    ∧ strictCand.title ≠ strictSeen.title
    ∧ mediumCand.link ≠ mediumSeen.link
    ∧ relaxedCand.link ≠ relaxedSeen.link
    ∧ relaxedCand.title ≠ relaxedSeen.title := by
  refine ⟨?_, ?_, ?_, by decide, by decide, by decide, by decide⟩
  · exact (isDuplicate_strategies 85 100 strictCand (signaturesFor strictSeen) _
      (List.mem_singleton.mpr rfl)).1 (by decide)
  · exact (isDuplicate_strategies 85 100 mediumCand (signaturesFor mediumSeen) _
      (List.mem_singleton.mpr rfl)).2.1 (by decide)
  · exact (isDuplicate_strategies 85 100 relaxedCand (signaturesFor relaxedSeen) _
      (List.mem_singleton.mpr rfl)).2.2 (by decide)

/-- Keys sharing a pair list with `Nodup` keys determine their values. -/
theorem keyed_value_unique {l : List (String × JsVal)}
    (hnd : (l.map Prod.fst).Nodup) {k : String} {v w : JsVal}
    (h1 : (k, v) ∈ l) (h2 : (k, w) ∈ l) : v = w := by
  induction l with
  | nil => cases h1
  | cons a t ih =>
    rw [List.map_cons, List.nodup_cons] at hnd
    rcases List.mem_cons.mp h1 with h1 | h1 <;>
      rcases List.mem_cons.mp h2 with h2 | h2
    · rw [← h2] at h1; exact congrArg Prod.snd h1
    · exfalso
      apply hnd.1
      have hka : k = a.1 := congrArg Prod.fst h1
      rw [← hka]
      exact List.mem_map_of_mem Prod.fst h2
    · exfalso
      apply hnd.1
      have hka : k = a.1 := congrArg Prod.fst h2
      rw [← hka]
      exact List.mem_map_of_mem Prod.fst h1
    · exact ih hnd.2 h1 h2

/-- C9: `API.buildURL` appends a query pair for a key exactly when its
value is neither `null` nor `undefined`, and every appended pair stems
from a non-nullish parameter value coerced to a string — `null` and
`undefined` values are omitted, never serialized. -/
theorem buildURLQuery_omits_nullish (params : List (String × JsVal))
    (k k' : String) (v : JsVal) (s : String)
    (hnd : (params.map Prod.fst).Nodup)
    (hmem : (k, v) ∈ params)
    (hq : (k', s) ∈ buildURLQuery params) :
    (isNullish v = false ↔ k ∈ (buildURLQuery params).map Prod.fst)
    ∧ ∃ v', (k', v') ∈ params ∧ isNullish v' = false ∧ s = jsValToString v' := by
  constructor
  · constructor
    · intro hv
      refine List.mem_map.mpr ⟨(k, jsValToString v), ?_, rfl⟩
      refine List.mem_filterMap.mpr ⟨(k, v), hmem, ?_⟩
      have hnn : ¬ (isNullish (k, v).2 = true) := by simp [hv]
      rw [if_neg hnn]
    · intro hk
      obtain ⟨p, hp, hpk⟩ := List.mem_map.mp hk
      obtain ⟨q, hq1, hq2⟩ := List.mem_filterMap.mp hp
      by_cases hn : isNullish q.2 = true
      · rw [if_pos hn] at hq2; cases hq2
      · rw [if_neg hn, Option.some.injEq] at hq2
        have hqk : q.1 = k := by rw [← hpk, ← hq2]
        have hqmem : (k, q.2) ∈ params := by rw [← hqk]; exact hq1
        rw [keyed_value_unique hnd hmem hqmem]
        simpa using hn
  · obtain ⟨q, hq1, hq2⟩ := List.mem_filterMap.mp hq
    by_cases hn : isNullish q.2 = true
    · rw [if_pos hn] at hq2; cases hq2
    · rw [if_neg hn, Option.some.injEq] at hq2
      have hk1 : q.1 = k' := congrArg Prod.fst hq2
      have hs : s = jsValToString q.2 := (congrArg Prod.snd hq2).symm
      refine ⟨q.2, ?_, by simpa using hn, hs⟩
      rw [← hk1]
      exact hq1

/-- C9 (witness): in the example parameters, the non-nullish `page` key
is appended while the `null`-valued `q` key is not, and the appended
`tag` pair stems from a non-nullish value. -/
theorem buildURLQuery_omits_nullish_witness :
    "page" ∈ (buildURLQuery exParams).map Prod.fst
    ∧ "q" ∉ (buildURLQuery exParams).map Prod.fst := by
  constructor
  · exact (buildURLQuery_omits_nullish exParams "page" "tag" (.vNum 2) "ai"
      (by decide) (by decide) (by decide)).1.mp (by decide)
  · intro hq
    have h := (buildURLQuery_omits_nullish exParams "q" "tag" .vNull "ai"
      (by decide) (by decide) (by decide)).1.mpr hq
    exact absurd h (by decide)

end SpiderAgg
